import Mathlib

/-!
Verification of the manifest-driven text-file cataloging core of the VOTS
content site.  The JavaScript services are shallowly embedded: program
strings are lists of characters, the content fetch and the clock are
explicit parameters, and every operation is a total function returning a
tagged success/failure result, exactly as the source returns JSON result
objects.
-/

namespace Vots

/-- Character-list form of a string literal; all program strings are
modelled as lists of characters. -/
def str (s : String) : List Char := s.toList

/-- Decimal rendering of a natural number, as a JavaScript template
literal renders an interpolated count. -/
def natStr (n : Nat) : List Char := (Nat.repr n).toList

/-- Whitespace characters of the JavaScript whitespace class used by the
source regular expressions, which is also the set trimmed by trim(). -/
def jsWhitespace (c : Char) : Bool :=
  c == ' ' || c == '\t' || c == '\n' || c == '\r' || c == '\x0b' ||
  c == '\x0c' || c == '\u00A0' || c == '\u1680' ||
  (decide ('\u2000' ≤ c) && decide (c ≤ '\u200A')) ||
  c == '\u2028' || c == '\u2029' || c == '\u202F' || c == '\u205F' ||
  c == '\u3000' || c == '\uFEFF'

/-- Removal of leading and trailing whitespace, modelling content.trim(). -/
def jsTrim (l : List Char) : List Char :=
  ((l.dropWhile jsWhitespace).reverse.dropWhile jsWhitespace).reverse

/-- Substring test, modelling hay.includes(needle). -/
def jsIncludes (hay needle : List Char) : Bool :=
  hay.tails.any (fun t => needle.isPrefixOf t)

/-- Split on every occurrence of a single separator character, modelling
s.split(sep) for a one-character plain-string separator. -/
def jsSplitChar (sep : Char) (l : List Char) : List (List Char) :=
  l.splitOnP (fun c => c == sep)

/-- Split on maximal runs of separator characters, modelling s.split(re)
for a regular expression that is a character class followed by plus: the
pieces are the maximal runs of non-separator characters, with an empty
piece at an end of the string that a separator run touches, and a single
empty piece for the empty string. -/
def jsSplitRuns (isSep : Char → Bool) (l : List Char) : List (List Char) :=
  match l with
  | [] => [[]]
  | c :: _ =>
    (if isSep c then [([] : List Char)] else []) ++
    ((l.splitOnP isSep).filter (fun t => !t.isEmpty)) ++
    (if isSep (l.getLastD c) then [([] : List Char)] else [])

/-- Title-casing of one token, modelling
word.charAt(0).toUpperCase() + word.slice(1).toLowerCase() with the
character case maps of Char.toUpper and Char.toLower. -/
def titleCaseWord : List Char → List Char
  | [] => []
  | c :: rest => c.toUpper :: rest.map Char.toLower

/-- Separator class of the file-name tokenizer: hyphen, underscore or
whitespace. -/
def fileNameSep (c : Char) : Bool := c == '-' || c == '_' || jsWhitespace c

/-- Anchored capital-letter test of the source regular expression: the
first character is an ASCII capital letter. -/
def startsWithUpper : List Char → Bool
  | [] => false
  | c :: _ => decide ('A' ≤ c) && decide (c ≤ 'Z')

/-- Condition of FileScannerService.extractTitle under which the first
line is used verbatim: non-empty (hence truthy), shorter than 100
characters, starting with an ASCII capital letter, containing neither
http nor www. -/
def isTitleLine (firstLine : List Char) : Bool :=
  !firstLine.isEmpty && decide (firstLine.length < 100) &&
  startsWithUpper firstLine &&
  !jsIncludes firstLine (str ("http")) && !jsIncludes firstLine (str ("www"))

/-- Title extraction, from FileScannerService.extractTitle: the first line
verbatim when it looks like a title, otherwise the file name split on runs
of hyphen, underscore and whitespace, each token title-cased, joined with
single spaces. -/
def extractTitle (firstLine fileName : List Char) : List Char :=
  if isTitleLine firstLine then firstLine
  else List.intercalate (str (" "))
    ((jsSplitRuns fileNameSep fileName).map titleCaseWord)

/-- Word tokens of FileScannerService.generateFileInfo: the trimmed
content split on whitespace runs, empty tokens discarded. -/
def wordTokens (content : List Char) : List (List Char) :=
  (jsSplitRuns jsWhitespace (jsTrim content)).filter (fun w => 0 < w.length)

/-- Lines of the content: the pieces of the split on the newline
character. -/
def contentLines (content : List Char) : List (List Char) :=
  jsSplitChar '\n' content

/-- Length bucket of the blurb, the if/else chain of
FileScannerService.generateFileInfo. -/
def storyLengthInfo (n : Nat) : List Char :=
  if n ≤ 1 then str ("Single line text file")
  else if n ≤ 10 then str ("Short story with ") ++ natStr n ++ str (" lines")
  else if n ≤ 50 then str ("Medium story with ") ++ natStr n ++ str (" lines")
  else str ("Long story with ") ++ natStr n ++ str (" lines")

/-- ASCII digit test of the regular-expression digit class. -/
def isDigitChar (c : Char) : Bool := decide ('0' ≤ c) && decide (c ≤ '9')

/-- Test whether a list starts with the date shape of four digits, a
hyphen, two digits, a hyphen and two digits. -/
def dateShapeAt : List Char → Bool
  | a :: b :: c :: d :: h1 :: e :: f :: h2 :: g :: i :: _ =>
    isDigitChar a && isDigitChar b && isDigitChar c && isDigitChar d &&
    h1 == '-' && isDigitChar e && isDigitChar f && h2 == '-' &&
    isDigitChar g && isDigitChar i
  | _ => false

/-- Unanchored search for the date shape, modelling the truthiness of
content.match on the date regular expression. -/
def hasDatePattern (content : List Char) : Bool :=
  content.tails.any dateShapeAt

/-- Accumulation step for the links hint of generateFileInfo. -/
def addLinkHint (content s : List Char) : List Char :=
  if jsIncludes content (str ("http")) || jsIncludes content (str ("www"))
  then s ++ str (" - Contains links") else s

/-- Accumulation step for the email hint of generateFileInfo. -/
def addEmailHint (content s : List Char) : List Char :=
  if jsIncludes content (str ("@"))
  then s ++ str (" - Contains email addresses") else s

/-- Accumulation step for the dates hint of generateFileInfo. -/
def addDateHint (content s : List Char) : List Char :=
  if hasDatePattern content then s ++ str (" - Contains dates") else s

/-- Blurb generation, from FileScannerService.generateFileInfo: the length
bucket, the word count, then the three content-type hints accumulated in
order.  The fileName parameter is present in the source but unused. -/
def generateFileInfo (content _fileName : List Char) : List Char :=
  addDateHint content (addEmailHint content (addLinkHint content
    (storyLengthInfo (contentLines content).length ++
      str (" (") ++ natStr (wordTokens content).length ++ str (" words)"))))

/-- Error object of the JSON failure responses: message, error name,
timestamp. -/
structure SvcError where
  message : List Char
  ename : List Char
  timestamp : List Char
  deriving DecidableEq

/-- Tagged success/failure result of every service operation. -/
inductive SResult (α : Type) where
  | ok : α → SResult α
  | err : SvcError → SResult α
  deriving DecidableEq

/-- Whether a result is the success case. -/
def SResult.isOk {α : Type} : SResult α → Bool
  | .ok _ => true
  | .err _ => false

/-- Outcome of fetching a path: the raw text, or a failure carrying the
message and error name the source would report for it (a thrown fetch or a
response that is not ok). -/
inductive FetchResult where
  | ok : List Char → FetchResult
  | fail : List Char → List Char → FetchResult
  deriving DecidableEq

/-- Manifest entry: path, title and blurb of one document. -/
structure FileEntry where
  path : List Char
  title : List Char
  info : List Char
  deriving DecidableEq

/-- Enriched per-document record produced by getFileInfo. -/
structure FileData where
  path : List Char
  title : List Char
  info : List Char
  fileName : List Char
  fileSize : Nat
  lineCount : Nat
  wordCount : Nat
  characterCount : Nat
  firstLine : List Char
  content : List Char
  timestamp : List Char
  deriving DecidableEq

/-- Record of one successful readTextFile call. -/
structure ReadData where
  content : List Char
  filePath : List Char
  fileName : List Char
  fileSize : Nat
  lineCount : Nat
  wordCount : Nat
  characterCount : Nat
  timestamp : List Char
  deriving DecidableEq

def invalidFilePathMsg : List Char := str ("Invalid file path provided")

def invalidExtensionMsg : List Char := str ("File must have .txt extension")

def invalidFolderPathMsg : List Char := str ("Invalid folder path provided")

def notArrayMsg : List Char := str ("filePaths must be an array")

def errorName : List Char := str ("Error")

/-- Characters after the last slash of a path, which is exactly the final
piece popped from the split of the path on the slash character. -/
def lastSegment (p : List Char) : List Char :=
  (p.reverse.takeWhile (fun c => c != '/')).reverse

/-- Replacement of the first occurrence of a non-empty plain-string
pattern, modelling s.replace(pattern, repl). -/
def replaceFirst (pat repl : List Char) : List Char → List Char
  | [] => []
  | c :: cs =>
    if pat.isPrefixOf (c :: cs) then repl ++ (c :: cs).drop pat.length
    else c :: replaceFirst pat repl cs

/-- Final path segment with the first occurrence of the extension removed,
from the source expression filePath.split on slash, pop, replace of the
extension by the empty string. -/
def fileNameOf (p : List Char) : List Char :=
  replaceFirst (str (".txt")) [] (lastSegment p)

/-- Lowering of a string, modelling toLowerCase() with the character case
map of Char.toLower. -/
def lowerStr (l : List Char) : List Char := l.map Char.toLower

/-- Case-insensitive extension test of the source:
path.toLowerCase().endsWith of the text extension. -/
def endsWithTxt (p : List Char) : Bool := (str (".txt")).isSuffixOf (lowerStr p)

/-- Detailed file information, from FileScannerService.getFileInfo.  The
content fetch and the clock are explicit parameters. -/
def getFileInfo (filePath : List Char) (fetch : List Char → FetchResult)
    (now : List Char) : SResult FileData :=
  if filePath.isEmpty then .err ⟨invalidFilePathMsg, errorName, now⟩
  else if !endsWithTxt filePath then .err ⟨invalidExtensionMsg, errorName, now⟩
  else match fetch filePath with
    | .fail m t => .err ⟨m, t, now⟩
    | .ok content =>
      let lines := jsSplitChar '\n' content
      let firstLine := jsTrim (lines.headD [])
      let fileName := fileNameOf filePath
      .ok { path := filePath
            title := extractTitle firstLine fileName
            info := generateFileInfo content fileName
            fileName := fileName
            fileSize := content.length
            lineCount := lines.length
            wordCount := (wordTokens content).length
            characterCount := content.length
            firstLine := firstLine
            content := content
            timestamp := now }

/-- Single-file read, from TextFileReaderService.readTextFile. -/
def readTextFile (filePath : List Char) (fetch : List Char → FetchResult)
    (now : List Char) : SResult ReadData :=
  if filePath.isEmpty then .err ⟨invalidFilePathMsg, errorName, now⟩
  else if !endsWithTxt filePath then .err ⟨invalidExtensionMsg, errorName, now⟩
  else match fetch filePath with
    | .fail m t => .err ⟨m, t, now⟩
    | .ok content =>
      .ok { content := content
            filePath := filePath
            fileName := lastSegment filePath
            fileSize := content.length
            lineCount := (jsSplitChar '\n' content).length
            wordCount := (wordTokens content).length
            characterCount := content.length
            timestamp := now }

/-- Aggregate data of readMultipleTextFiles: successful reads, failed
reads as path and message pairs, and the three counts. -/
structure MultiReadData where
  successfulReads : List ReadData
  failedReads : List (List Char × List Char)
  totalFiles : Nat
  successfulCount : Nat
  failedCount : Nat
  deriving DecidableEq

/-- Multi-file read, from TextFileReaderService.readMultipleTextFiles.
The none input stands for a non-array argument of the dynamically typed
source. -/
def readMultipleTextFiles (input : Option (List (List Char)))
    (fetch : List Char → FetchResult) (now : List Char) :
    SResult MultiReadData :=
  match input with
  | none => .err ⟨notArrayMsg, errorName, now⟩
  | some paths =>
    let results := paths.map (fun p => (p, readTextFile p fetch now))
    let succ := results.filterMap (fun pr =>
      match pr.2 with
      | .ok d => some d
      | .err _ => none)
    let failed := results.filterMap (fun pr =>
      match pr.2 with
      | .ok _ => none
      | .err e => some (pr.1, e.message))
    .ok { successfulReads := succ
          failedReads := failed
          totalFiles := paths.length
          successfulCount := succ.length
          failedCount := failed.length }

/-- Hardcoded fallback entry list of getTextFilesFromFolder. -/
def knownTextFiles (folderPath : List Char) : List FileEntry :=
  [{ path := folderPath ++ str ("example.txt")
     title := str ("Example Text File")
     info := str ("Sample text file for testing the TextFileReaderService") }]

/-- Story filter of getTextFilesFromFolder: the lowered path contains none
of the administrative substrings and the path ends with the extension. -/
def isStoryPath (p : List Char) : Bool :=
  !jsIncludes (lowerStr p) (str ("readme")) &&
  !jsIncludes (lowerStr p) (str ("manifest")) &&
  !jsIncludes (lowerStr p) (str ("license")) &&
  !jsIncludes (lowerStr p) (str ("changelog")) &&
  !jsIncludes (lowerStr p) (str ("contributing")) &&
  endsWithTxt p

/-- Manifest-driven file listing, from
FileScannerService.getTextFilesFromFolder.  The manifest fetch outcome is
the parameter: none for an unreachable manifest (the fetch threw or the
response was not ok); a manifest whose textFiles field is missing behaves
as the some case with the empty list. -/
def getTextFilesFromFolder (folderPath : List Char)
    (manifest : Option (List FileEntry)) : List FileEntry :=
  match manifest with
  | none => knownTextFiles folderPath
  | some entries =>
    let storyFiles := entries.filter (fun f => isStoryPath f.path)
    if 0 < storyFiles.length then storyFiles else knownTextFiles folderPath

/-- Successful scan data of scanTextFiles. -/
structure ScanData where
  folderPath : List Char
  totalFiles : Nat
  files : List FileEntry
  scanTimestamp : List Char
  deriving DecidableEq

/-- Folder scan, from FileScannerService.scanTextFiles: validate the
folder path, normalize it to end with a slash, list the files. -/
def scanTextFiles (folderPath : List Char) (manifest : Option (List FileEntry))
    (now : List Char) : SResult ScanData :=
  if folderPath.isEmpty then .err ⟨invalidFolderPathMsg, errorName, now⟩
  else
    let np := if folderPath.getLastD ' ' == '/' then folderPath
      else folderPath ++ [('/' : Char)]
    let files := getTextFilesFromFolder np manifest
    .ok { folderPath := np
          totalFiles := files.length
          files := files
          scanTimestamp := now }

/-- Per-entry enrichment of the Stories page, from Stories.loadStories:
each listed entry is passed to getFileInfo and failed reads are dropped. -/
def collectStories (files : List FileEntry) (fetch : List Char → FetchResult)
    (now : List Char) : List FileData :=
  (files.map (fun f => getFileInfo f.path fetch now)).filterMap (fun r =>
    match r with
    | .ok d => some d
    | .err _ => none)

/-- Whole listing of the Stories page, from Stories.loadStories: scan the
folder, then enrich every listed file, dropping per-entry failures. -/
def loadStories (folderPath : List Char) (manifest : Option (List FileEntry))
    (fetch : List Char → FetchResult) (now : List Char) :
    SResult (List FileData) :=
  match scanTextFiles folderPath manifest now with
  | .ok sd => .ok (collectStories sd.files fetch now)
  | .err e => .err e

/-- Tail of hints the blurb generation appends after the bucket and the
word count. -/
def hintTail (content : List Char) : List Char :=
  (if jsIncludes content (str ("http")) || jsIncludes content (str ("www"))
    then str (" - Contains links") else []) ++
  (if jsIncludes content (str ("@"))
    then str (" - Contains email addresses") else []) ++
  (if hasDatePattern content then str (" - Contains dates") else [])

theorem isTitleLine_iff (fl : List Char) :
    isTitleLine fl = true ↔
      (fl ≠ [] ∧ fl.length < 100 ∧ startsWithUpper fl = true ∧
       jsIncludes fl (str ("http")) = false ∧
       jsIncludes fl (str ("www")) = false) := by
  simp [isTitleLine, Bool.and_eq_true, Bool.not_eq_true', List.isEmpty_iff,
    decide_eq_true_eq, and_assoc]

theorem generateFileInfo_eq (content fn : List Char) :
    generateFileInfo content fn =
      storyLengthInfo (contentLines content).length ++ str (" (") ++
      natStr (wordTokens content).length ++ str (" words)") ++
      hintTail content := by
  unfold generateFileInfo hintTail addDateHint addEmailHint addLinkHint
  split_ifs <;> simp [List.append_assoc]

/-- C1: extractTitle returns the first line verbatim exactly when it is
non-empty, shorter than 100 characters, starts with a capital letter (the
anchored ASCII class of the source) and contains neither http nor www;
otherwise it returns the file name split on runs of hyphen, underscore and
whitespace with each token title-cased and the tokens joined by single
spaces, which is the empty string for an empty file name; illustrated on
the two documented examples. -/
theorem c1_extractTitle (fl fn : List Char) :
    (fl ≠ [] → fl.length < 100 → startsWithUpper fl = true →
      jsIncludes fl (str ("http")) = false →
      jsIncludes fl (str ("www")) = false →
      extractTitle fl fn = fl) ∧
    (¬ (fl ≠ [] ∧ fl.length < 100 ∧ startsWithUpper fl = true ∧
        jsIncludes fl (str ("http")) = false ∧
        jsIncludes fl (str ("www")) = false) →
      extractTitle fl fn =
        List.intercalate (str (" "))
          ((jsSplitRuns fileNameSep fn).map titleCaseWord)) ∧
    (fn = [] →
      ¬ (fl ≠ [] ∧ fl.length < 100 ∧ startsWithUpper fl = true ∧
         jsIncludes fl (str ("http")) = false ∧
         jsIncludes fl (str ("www")) = false) →
      extractTitle fl fn = []) ∧
    extractTitle (str ("The Long Night")) (str ("ch1")) =
      str ("The Long Night") ∧
    extractTitle (str ("http://x")) (str ("my-story")) = str ("My Story") := by
  have hfalse : ∀ h : ¬ (fl ≠ [] ∧ fl.length < 100 ∧ startsWithUpper fl = true ∧
      jsIncludes fl (str ("http")) = false ∧
      jsIncludes fl (str ("www")) = false), isTitleLine fl = false := by
    intro h
    cases hb : isTitleLine fl
    · rfl
    · exact absurd ((isTitleLine_iff fl).mp hb) h
  refine ⟨?_, ?_, ?_, by decide, by decide⟩
  · intro h1 h2 h3 h4 h5
    have ht : isTitleLine fl = true := (isTitleLine_iff fl).mpr ⟨h1, h2, h3, h4, h5⟩
    simp [extractTitle, ht]
  · intro h
    simp [extractTitle, hfalse h]
  · intro hfn h
    subst hfn
    simp [extractTitle, hfalse h]
    decide

theorem c1_extractTitle_witness :
    extractTitle (str ("Hi")) (str ("zz")) = str ("Hi") :=
  (c1_extractTitle (str ("Hi")) (str ("zz"))).1 (by decide) (by decide)
    (by decide) (by decide) (by decide)

/-- C2: the blurb begins with the length bucket at the thresholds one, ten
and fifty lines, and immediately after the bucket comes the word count of
the trimmed content split on whitespace runs, empty tokens discarded. -/
theorem c2_generateInfoBuckets (content fn : List Char) :
    ((contentLines content).length ≤ 1 →
      ∃ r, generateFileInfo content fn =
        str ("Single line text file") ++ str (" (") ++
        natStr (wordTokens content).length ++ str (" words)") ++ r) ∧
    (2 ≤ (contentLines content).length → (contentLines content).length ≤ 10 →
      ∃ r, generateFileInfo content fn =
        str ("Short story with ") ++ natStr (contentLines content).length ++
        str (" lines") ++ str (" (") ++
        natStr (wordTokens content).length ++ str (" words)") ++ r) ∧
    (11 ≤ (contentLines content).length → (contentLines content).length ≤ 50 →
      ∃ r, generateFileInfo content fn =
        str ("Medium story with ") ++ natStr (contentLines content).length ++
        str (" lines") ++ str (" (") ++
        natStr (wordTokens content).length ++ str (" words)") ++ r) ∧
    (51 ≤ (contentLines content).length →
      ∃ r, generateFileInfo content fn =
        str ("Long story with ") ++ natStr (contentLines content).length ++
        str (" lines") ++ str (" (") ++
        natStr (wordTokens content).length ++ str (" words)") ++ r) := by
  refine ⟨?_, ?_, ?_, ?_⟩
  · intro h
    refine ⟨hintTail content, ?_⟩
    rw [generateFileInfo_eq]
    unfold storyLengthInfo
    rw [if_pos h]
  · intro h2 h10
    refine ⟨hintTail content, ?_⟩
    rw [generateFileInfo_eq]
    unfold storyLengthInfo
    rw [if_neg (by omega), if_pos h10]
  · intro h11 h50
    refine ⟨hintTail content, ?_⟩
    rw [generateFileInfo_eq]
    unfold storyLengthInfo
    rw [if_neg (by omega), if_neg (by omega), if_pos h50]
  · intro h51
    refine ⟨hintTail content, ?_⟩
    rw [generateFileInfo_eq]
    unfold storyLengthInfo
    rw [if_neg (by omega), if_neg (by omega), if_neg (by omega)]

theorem c2_generateInfoBuckets_witness :
    ∃ r, generateFileInfo (str ("Hello there")) (str ("f")) =
      str ("Single line text file") ++ str (" (") ++
      natStr (wordTokens (str ("Hello there"))).length ++
      str (" words)") ++ r :=
  (c2_generateInfoBuckets (str ("Hello there")) (str ("f"))).1 (by decide)

/-- C3: when the content contains http or www, contains an at-sign, and
contains the date shape, the three hints all appear after the bucket and
word count in exactly the order links, email addresses, dates. -/
theorem c3_hintOrder (content fn : List Char)
    (hlinks : (jsIncludes content (str ("http")) ||
      jsIncludes content (str ("www"))) = true)
    (hemail : jsIncludes content (str ("@")) = true)
    (hdate : hasDatePattern content = true) :
    generateFileInfo content fn =
      storyLengthInfo (contentLines content).length ++ str (" (") ++
      natStr (wordTokens content).length ++ str (" words)") ++
      str (" - Contains links") ++ str (" - Contains email addresses") ++
      str (" - Contains dates") := by
  rw [generateFileInfo_eq]
  unfold hintTail
  rw [if_pos hlinks, if_pos hemail, if_pos hdate]
  simp [List.append_assoc]

theorem c3_hintOrder_witness :
    generateFileInfo (str ("http x@y 2024-01-01")) [] =
      storyLengthInfo (contentLines (str ("http x@y 2024-01-01"))).length ++
      str (" (") ++
      natStr (wordTokens (str ("http x@y 2024-01-01"))).length ++
      str (" words)") ++ str (" - Contains links") ++
      str (" - Contains email addresses") ++ str (" - Contains dates") :=
  c3_hintOrder (str ("http x@y 2024-01-01")) [] (by decide) (by decide)
    (by decide)

/-- C4: every entry of the listing either passes the story filter, whose
lowered path contains none of the administrative substrings and ends with
the extension, or is the hardcoded fallback entry; and an entry whose path
is the documented readme path never appears, for any manifest. -/
theorem c4_adminFilter (fp : List Char) (m : Option (List FileEntry))
    (e : FileEntry) (hmem : e ∈ getTextFilesFromFolder fp m) :
    (isStoryPath e.path = true ∨ e ∈ knownTextFiles fp) ∧
    e.path ≠ str ("./docs/README.txt") := by
  have hmain : isStoryPath e.path = true ∨ e ∈ knownTextFiles fp := by
    cases m with
    | none => exact Or.inr hmem
    | some entries =>
      simp only [getTextFilesFromFolder] at hmem
      by_cases hlen : 0 < (entries.filter (fun f => isStoryPath f.path)).length
      · rw [if_pos hlen] at hmem
        exact Or.inl (List.mem_filter.mp hmem).2
      · rw [if_neg hlen] at hmem
        exact Or.inr hmem
  refine ⟨hmain, ?_⟩
  intro hpath
  cases hmain with
  | inl h =>
    rw [hpath] at h
    exact absurd h (by decide)
  | inr h =>
    have hp : e.path = fp ++ str ("example.txt") := by
      simp only [knownTextFiles, List.mem_singleton] at h
      rw [h]
    rw [hp] at hpath
    have hlen17 : fp.length + (str ("example.txt")).length =
        (str ("./docs/README.txt")).length := by
      rw [← List.length_append, hpath]
    have h11 : (str ("example.txt")).length = 11 := by decide
    have h17 : (str ("./docs/README.txt")).length = 17 := by decide
    have hfp6 : fp.length = 6 := by omega
    have hdrop : str ("example.txt") = (str ("./docs/README.txt")).drop 6 := by
      rw [← hpath, ← hfp6]
      exact (List.drop_left fp _).symm
    exact absurd hdrop (by decide)

/-- Concrete entry used to witness the filter theorem. -/
def c4e : FileEntry :=
  { path := str ("./s/tale.txt"), title := [], info := [] }

theorem c4_adminFilter_witness :
    (isStoryPath c4e.path = true ∨ c4e ∈ knownTextFiles (str ("./s/"))) ∧
    c4e.path ≠ str ("./docs/README.txt") :=
  c4_adminFilter (str ("./s/")) (some [c4e]) c4e (by decide)

/-- C5: a per-entry fetch failure excludes only that entry and never the
listing: with three listed entries whose second read fails, the listing is
the success holding exactly the first and third records in order; and for
any fetch behaviour at all, a listing over a reachable manifest is a
success. -/
theorem c5_partialFailure (fp : List Char) (m : Option (List FileEntry))
    (fetch : List Char → FetchResult) (now : List Char) (sd : ScanData)
    (e1 e2 e3 : FileEntry) (d1 d3 : FileData) (er : SvcError)
    (hscan : scanTextFiles fp m now = SResult.ok sd)
    (hfiles : sd.files = [e1, e2, e3])
    (h1 : getFileInfo e1.path fetch now = SResult.ok d1)
    (h2 : getFileInfo e2.path fetch now = SResult.err er)
    (h3 : getFileInfo e3.path fetch now = SResult.ok d3) :
    loadStories fp m fetch now = SResult.ok [d1, d3] ∧
    ∀ g : List Char → FetchResult, ∃ l,
      loadStories fp m g now = SResult.ok l := by
  constructor
  · simp [loadStories, hscan, collectStories, hfiles, h1, h2, h3]
  · intro g
    exact ⟨collectStories sd.files g now, by simp [loadStories, hscan]⟩

/-- Concrete manifest entries used to witness the partial-failure
theorem. -/
def c5e1 : FileEntry := { path := str ("./s/a.txt"), title := [], info := [] }

/-- Second concrete entry, whose fetch the witness makes fail. -/
def c5e2 : FileEntry := { path := str ("./s/b.txt"), title := [], info := [] }

/-- Third concrete entry. -/
def c5e3 : FileEntry := { path := str ("./s/c.txt"), title := [], info := [] }

/-- Fetch used by the witness: fails on the second path only. -/
def c5fetch : List Char → FetchResult := fun p =>
  if p = str ("./s/b.txt") then FetchResult.fail (str ("boom")) errorName
  else FetchResult.ok (str ("Hi"))

/-- Record produced for a path whose fetched content is the two-character
greeting. -/
def c5data (p fn : List Char) : FileData :=
  { path := p, title := str ("Hi")
    info := str ("Single line text file (1 words)")
    fileName := fn, fileSize := 2, lineCount := 1, wordCount := 1
    characterCount := 2, firstLine := str ("Hi"), content := str ("Hi")
    timestamp := [] }

/-- Scan data the witness scan produces. -/
def c5sd : ScanData :=
  { folderPath := str ("./s/"), totalFiles := 3
    files := [c5e1, c5e2, c5e3], scanTimestamp := [] }

theorem c5_partialFailure_witness :
    loadStories (str ("./s/")) (some [c5e1, c5e2, c5e3]) c5fetch [] =
      SResult.ok [c5data (str ("./s/a.txt")) (str ("a")),
        c5data (str ("./s/c.txt")) (str ("c"))] :=
  (c5_partialFailure (str ("./s/")) (some [c5e1, c5e2, c5e3]) c5fetch []
    c5sd c5e1 c5e2 c5e3 (c5data (str ("./s/a.txt")) (str ("a")))
    (c5data (str ("./s/c.txt")) (str ("c")))
    { message := str ("boom"), ename := errorName, timestamp := [] }
    (by decide) (by decide) (by decide) (by decide) (by decide)).1

theorem takeWhile_append_all {q : Char → Bool} (a b : List Char)
    (h : ∀ x ∈ a, q x = true) :
    (a ++ b).takeWhile q = a ++ b.takeWhile q := by
  induction a with
  | nil => simp
  | cons x xs ih =>
    have hx : q x = true := h x (List.mem_cons_self x xs)
    simp only [List.cons_append, List.takeWhile_cons, hx, if_true]
    rw [ih (fun y hy => h y (List.mem_cons_of_mem x hy))]

theorem lastSegment_after_slash (pre t : List Char)
    (ht : ∀ c ∈ t, (c != '/') = true) :
    lastSegment ((pre ++ [('/' : Char)]) ++ t) = t := by
  unfold lastSegment
  rw [List.reverse_append, List.reverse_append]
  simp only [List.reverse_cons, List.reverse_nil, List.nil_append,
    List.singleton_append]
  rw [takeWhile_append_all _ _ (fun x hx => ht x (List.mem_reverse.mp hx))]
  simp [List.takeWhile_cons]

/-- Normalized folder path of scanTextFiles: a trailing slash is appended
when missing. -/
def normPath (fp : List Char) : List Char :=
  if fp.getLastD ' ' == '/' then fp else fp ++ [('/' : Char)]

theorem normPath_concat (fp : List Char) (h : fp ≠ []) :
    ∃ ms, normPath fp = ms ++ [('/' : Char)] := by
  by_cases hl : (fp.getLastD ' ' == '/') = true
  · rcases List.eq_nil_or_concat fp with hnil | ⟨ms, c, hc⟩
    · exact absurd hnil h
    · rw [List.concat_eq_append] at hc
      refine ⟨ms, ?_⟩
      have hc2 : fp.getLastD ' ' = c := by
        rw [hc]
        exact List.getLastD_concat _ _ _
      have hslash : c = '/' := by
        rw [hc2] at hl
        exact eq_of_beq hl
      rw [normPath, if_pos hl, hc, hslash]
  · refine ⟨fp, ?_⟩
    rw [normPath, if_neg hl]

theorem scanTextFiles_unreachable (fp now : List Char) (h : fp ≠ []) :
    scanTextFiles fp none now = SResult.ok
      { folderPath := normPath fp, totalFiles := 1
        files := knownTextFiles (normPath fp), scanTimestamp := now } := by
  have hne : fp.isEmpty = false := by
    cases fp
    · exact absurd rfl h
    · rfl
  simp [scanTextFiles, hne, getTextFilesFromFolder, knownTextFiles, normPath]

theorem getFileInfo_ok_fileName (p : List Char)
    (fetch : List Char → FetchResult) (now : List Char) (d : FileData)
    (h : getFileInfo p fetch now = SResult.ok d) :
    d.fileName = fileNameOf p := by
  unfold getFileInfo at h
  split at h
  · cases h
  · split at h
    · cases h
    · split at h
      · cases h
      · injection h with hd
        subst hd
        rfl

/-- C6: when the manifest is unavailable the scan falls back to the
hardcoded single-entry list; the lone entry's path ends with the sample
file name, the file name derived from that path is exactly the sample
stem, and any record getFileInfo builds for it carries that file name. -/
theorem c6_fallback (fp now : List Char) (h : fp ≠ []) :
    ∃ sd e, scanTextFiles fp none now = SResult.ok sd ∧
      sd.files = knownTextFiles sd.folderPath ∧ sd.files = [e] ∧
      str ("example.txt") <:+ e.path ∧
      fileNameOf e.path = str ("example") ∧
      ∀ g d, getFileInfo e.path g now = SResult.ok d →
        d.fileName = str ("example") := by
  obtain ⟨ms, hms⟩ := normPath_concat fp h
  have hname : fileNameOf (normPath fp ++ str ("example.txt")) =
      str ("example") := by
    unfold fileNameOf
    rw [hms, lastSegment_after_slash ms _ (by decide)]
    decide
  refine ⟨_, _, scanTextFiles_unreachable fp now h, rfl, rfl, ?_, hname, ?_⟩
  · exact List.suffix_append _ _
  · intro g d hok
    rw [getFileInfo_ok_fileName _ g now d hok]
    exact hname

theorem c6_fallback_witness :
    ∃ sd e, scanTextFiles (str ("./s")) none [] = SResult.ok sd ∧
      sd.files = knownTextFiles sd.folderPath ∧ sd.files = [e] ∧
      str ("example.txt") <:+ e.path ∧
      fileNameOf e.path = str ("example") ∧
      ∀ g d, getFileInfo e.path g [] = SResult.ok d →
        d.fileName = str ("example") :=
  c6_fallback (str ("./s")) [] (by decide)

/-- C7 counterexample: the empty path does not end with the text
extension, yet getFileInfo answers the invalid-path failure, whose message
differs from the invalid-extension message, so the claim's universal
statement fails at the empty path. -/
theorem c7_invalidExtension_cex :
    endsWithTxt [] = false ∧
    getFileInfo [] (fun _ => FetchResult.fail [] []) [] =
      SResult.err { message := invalidFilePathMsg, ename := errorName
                    timestamp := [] } ∧
    invalidFilePathMsg ≠ invalidExtensionMsg := by
  decide

/-- C7 amended: for every non-empty path that does not end with the text
extension case-insensitively, getFileInfo returns the tagged
invalid-extension failure carrying its message and the timestamp; and for
every path without the extension, empty included, the success branch is
unreachable. -/
theorem c7_invalidExtension (p : List Char) (fetch : List Char → FetchResult)
    (now : List Char) (hext : endsWithTxt p = false) :
    (p ≠ [] → getFileInfo p fetch now =
      SResult.err { message := invalidExtensionMsg, ename := errorName
                    timestamp := now }) ∧
    ∀ d, getFileInfo p fetch now ≠ SResult.ok d := by
  constructor
  · intro hp
    have hne : p.isEmpty = false := by
      cases p
      · exact absurd rfl hp
      · rfl
    simp [getFileInfo, hne, hext]
  · intro d hok
    unfold getFileInfo at hok
    by_cases hp : p.isEmpty = true
    · rw [if_pos hp] at hok
      cases hok
    · rw [if_neg hp] at hok
      rw [hext] at hok
      simp at hok

theorem c7_invalidExtension_witness :
    getFileInfo (str ("notes.md")) (fun _ => FetchResult.fail [] []) [] =
      SResult.err { message := invalidExtensionMsg, ename := errorName
                    timestamp := [] } :=
  (c7_invalidExtension (str ("notes.md")) (fun _ => FetchResult.fail [] [])
    [] (by decide)).1 (by decide)

/-- C8: every successfully produced record satisfies the data-model
invariants: the character count equals the file size, both equal the
length of the fetched content, the line count is at least one, the word
count is a natural number, and the first line is the trimmed first
newline-separated line of the content; for the reader records the same
count invariants hold. -/
theorem c8_recordInvariants :
    (∀ p fetch now d, getFileInfo p fetch now = SResult.ok d →
      d.characterCount = d.fileSize ∧ d.fileSize = d.content.length ∧
      1 ≤ d.lineCount ∧ 0 ≤ d.wordCount ∧
      d.firstLine = jsTrim ((jsSplitChar '\n' d.content).headD [])) ∧
    (∀ p fetch now r, readTextFile p fetch now = SResult.ok r →
      r.characterCount = r.fileSize ∧ r.fileSize = r.content.length ∧
      1 ≤ r.lineCount ∧ 0 ≤ r.wordCount) := by
  constructor
  · intro p fetch now d hok
    unfold getFileInfo at hok
    split at hok
    · cases hok
    · split at hok
      · cases hok
      · split at hok
        · cases hok
        · rename_i content heq
          simp only [] at hok
          injection hok with hd
          subst hd
          refine ⟨rfl, rfl, ?_, Nat.zero_le _, rfl⟩
          exact List.length_pos.mpr (List.splitOnP_ne_nil _ content)
  · intro p fetch now r hok
    unfold readTextFile at hok
    split at hok
    · cases hok
    · split at hok
      · cases hok
      · split at hok
        · cases hok
        · rename_i content heq
          injection hok with hr
          subst hr
          refine ⟨rfl, rfl, ?_, Nat.zero_le _⟩
          exact List.length_pos.mpr (List.splitOnP_ne_nil _ content)

/-- Record the reader witness produces. -/
def c8d : FileData :=
  { path := str ("a.txt"), title := str ("Hi")
    info := str ("Single line text file (1 words)")
    fileName := str ("a"), fileSize := 2, lineCount := 1, wordCount := 1
    characterCount := 2, firstLine := str ("Hi"), content := str ("Hi")
    timestamp := [] }

theorem c8_recordInvariants_witness :
    c8d.characterCount = c8d.fileSize ∧
    c8d.fileSize = c8d.content.length ∧ 1 ≤ c8d.lineCount ∧
    0 ≤ c8d.wordCount ∧
    c8d.firstLine = jsTrim ((jsSplitChar '\n' c8d.content).headD []) :=
  c8_recordInvariants.1 (str ("a.txt"))
    (fun _ => FetchResult.ok (str ("Hi"))) [] c8d (by decide)

/-- C9: when the story filter removes every manifest entry the listing is
the hardcoded fallback, and the listing is never the empty list for any
manifest outcome. -/
theorem c9_neverEmptyListing (fp : List Char) (entries : List FileEntry)
    (hzero : entries.filter (fun e => isStoryPath e.path) = []) :
    getTextFilesFromFolder fp (some entries) = knownTextFiles fp ∧
    ∀ m, getTextFilesFromFolder fp m ≠ [] := by
  constructor
  · simp [getTextFilesFromFolder, hzero]
  · intro m
    cases m with
    | none => simp [getTextFilesFromFolder, knownTextFiles]
    | some es =>
      simp only [getTextFilesFromFolder]
      by_cases hl : 0 < (es.filter (fun f => isStoryPath f.path)).length
      · rw [if_pos hl]
        intro hnil
        rw [hnil] at hl
        exact absurd hl (by simp)
      · rw [if_neg hl]
        simp [knownTextFiles]

/-- Administrative entry the fallback witness filters out. -/
def c9bad : FileEntry :=
  { path := str ("./s/README.txt"), title := [], info := [] }

theorem c9_neverEmptyListing_witness :
    getTextFilesFromFolder (str ("./s/")) (some [c9bad]) =
      knownTextFiles (str ("./s/")) ∧
    ∀ m, getTextFilesFromFolder (str ("./s/")) m ≠ [] :=
  c9_neverEmptyListing (str ("./s/")) [c9bad] (by decide)

theorem readTextFile_filePath (p : List Char)
    (fetch : List Char → FetchResult) (now : List Char) (r : ReadData)
    (h : readTextFile p fetch now = SResult.ok r) : r.filePath = p := by
  unfold readTextFile at h
  split at h
  · cases h
  · split at h
    · cases h
    · split at h
      · cases h
      · injection h with hr
        subst hr
        rfl

theorem filter_length_partition {α : Type} (p : α → Bool) (l : List α) :
    (l.filter p).length + (l.filter (fun a => !p a)).length = l.length := by
  induction l with
  | nil => rfl
  | cons a t ih =>
    by_cases h : p a = true
    · simp [List.filter_cons, h]
      omega
    · have h2 : p a = false := by
        revert h
        cases p a <;> simp
      simp [List.filter_cons, h2]
      omega

theorem multiRead_partition (paths : List (List Char))
    (fetch : List Char → FetchResult) (now : List Char) :
    ((paths.map (fun p => (p, readTextFile p fetch now))).filterMap (fun pr =>
        match pr.2 with
        | .ok d => some d
        | .err _ => none)).map (fun r => r.filePath) =
      paths.filter (fun p => (readTextFile p fetch now).isOk) ∧
    ((paths.map (fun p => (p, readTextFile p fetch now))).filterMap (fun pr =>
        match pr.2 with
        | .ok _ => none
        | .err e => some (pr.1, e.message))).map (fun pr => pr.1) =
      paths.filter (fun p => !(readTextFile p fetch now).isOk) := by
  induction paths with
  | nil => exact ⟨rfl, rfl⟩
  | cons p ps ih =>
    cases hr : readTextFile p fetch now with
    | ok d =>
      have hfp : d.filePath = p := readTextFile_filePath p fetch now d hr
      constructor
      · simp only [List.map_cons, List.filterMap_cons, List.filter_cons, hr,
          SResult.isOk, if_true, List.map_cons]
        rw [hfp, ih.1]
        rfl
      · simp only [List.map_cons, List.filterMap_cons, List.filter_cons, hr,
          SResult.isOk, Bool.not_true, if_false]
        exact ih.2
    | err e =>
      constructor
      · simp only [List.map_cons, List.filterMap_cons, List.filter_cons, hr,
          SResult.isOk, if_false]
        exact ih.1
      · simp only [List.map_cons, List.filterMap_cons, List.filter_cons, hr,
          SResult.isOk, Bool.not_false, if_true, List.map_cons]
        rw [ih.2]
        rfl

/-- C10: for every array of paths the multi-read is an overall success
whose counts add up, the successful records carry exactly the succeeding
paths in order, the failed pairs carry exactly the failing paths in order,
and only the non-array argument produces an overall failure. -/
theorem c10_multiRead (paths : List (List Char))
    (fetch : List Char → FetchResult) (now : List Char) :
    (∃ d, readMultipleTextFiles (some paths) fetch now = SResult.ok d ∧
      d.totalFiles = paths.length ∧
      d.successfulCount = d.successfulReads.length ∧
      d.failedCount = d.failedReads.length ∧
      d.successfulCount + d.failedCount = d.totalFiles ∧
      d.successfulReads.map (fun r => r.filePath) =
        paths.filter (fun p => (readTextFile p fetch now).isOk) ∧
      d.failedReads.map (fun pr => pr.1) =
        paths.filter (fun p => !(readTextFile p fetch now).isOk)) ∧
    readMultipleTextFiles none fetch now =
      SResult.err { message := notArrayMsg, ename := errorName
                    timestamp := now } := by
  obtain ⟨h1, h2⟩ := multiRead_partition paths fetch now
  refine ⟨⟨_, rfl, rfl, rfl, rfl, ?_, h1, h2⟩, rfl⟩
  show (_ : List ReadData).length + (_ : List (List Char × List Char)).length
    = paths.length
  rw [← List.length_map _ (fun r : ReadData => r.filePath), h1,
    ← List.length_map _ (fun pr : List Char × List Char => pr.1), h2]
  exact filter_length_partition _ _

end Vots
